import Mathlib

/-!
Verification development for the agent-share CLI (install/update reconciliation
tool).  The definitions below are shallow embeddings of the TypeScript source:
`parseGitHubUrl` / `fetchRepo` (src/packages/agent-share/dist/utils/config.js),
`linkOrCopy` (src/packages/agent-share/src/utils/link.ts), the install executor
loop (installCommand, step 7), the existence-matrix builder and select-all
filter (src/packages/agent-share/src/utils/prompts.ts), and the persisted
config merge (setConfig).  Filesystem and network effects are modelled by
explicit state (a path-existence predicate) and outcome oracles.
-/

namespace AgentShare

/-! ## Path helpers -/

/-- Model of `path.join(a, b)` for the abstract paths used here. -/
def pathJoin (a b : String) : String := a ++ "/" ++ b

/-- Split a character list at every `/`, keeping empty segments
(the semantics of `String.splitOn "/"`). -/
def splitSlashAux : List Char → List Char → List String
  | [], acc => [⟨acc.reverse⟩]
  | c :: cs, acc =>
    if c = '/' then ⟨acc.reverse⟩ :: splitSlashAux cs []
    else splitSlashAux cs (c :: acc)

/-- `s.splitOn "/"`, implemented structurally. -/
def splitSlash (s : String) : List String := splitSlashAux s.data []

/-- `String.intercalate "/"`, implemented structurally. -/
def joinSlash : List String → String
  | [] => ""
  | [x] => x
  | x :: xs => x ++ "/" ++ joinSlash xs

/-- Model of `path.dirname`: everything before the last separator. -/
def dirname (s : String) : String :=
  match (splitSlash s).dropLast with
  | [] => "."
  | segs => joinSlash segs

/-! ## GitHub URL parsing (dist/utils/config.js: parseGitHubUrl)

The source matches the input against two regexes in order:

  pattern 1: https?://github.com/([^/]+)/([^/]+)(?:/tree/([^/]+))?(?:/(.+))?$
  pattern 2: ([^/]+)/([^/]+)(?:/(.+))?$

and returns owner = group 1, repo = group 2 with the first occurrence of
".git" removed (JS `String.replace` with a string pattern replaces only the
first occurrence), branch = group 3 or "main", subpath = group 4.
The matchers below replay the (deterministic) regex semantics over the
slash-separated segments, including the backtracking that turns a failed
`/tree/<branch>` group into part of the plain `(.+)` subpath group. -/

/-- JS `s.replace(pat, repl)` with a string pattern: replace the first
occurrence of `pat` in `s` only. -/
def replaceFirstAux (pat repl : List Char) : List Char → List Char
  | [] => []
  | c :: cs =>
    if pat.isPrefixOf (c :: cs) then repl ++ (c :: cs).drop pat.length
    else c :: replaceFirstAux pat repl cs

/-- JS `String.prototype.replace` with a plain-string pattern. -/
def jsReplaceFirst (s pat repl : String) : String :=
  ⟨replaceFirstAux pat.data repl.data s.data⟩

structure GitHubRef where
  owner : String
  repo : String
  branch : String
  subpath : Option String
deriving DecidableEq, Repr

/-- Strip a literal character-list prefix, or fail. -/
def stripCharsPrefix (pat : List Char) (s : List Char) : Option (List Char) :=
  if pat.isPrefixOf s then some (s.drop pat.length) else none

/-- The `https?://github.com/` prefix of regex pattern 1. -/
def stripGithubPrefix (s : String) : Option String :=
  match stripCharsPrefix "https://github.com/".data s.data with
  | some r => some ⟨r⟩
  | none =>
    match stripCharsPrefix "http://github.com/".data s.data with
    | some r => some ⟨r⟩
    | none => none

/-- Regex pattern 1 on the input: returns (owner, raw repo, branch group,
subpath group) on a match. -/
def matchFullUrl (s : String) : Option (String × String × Option String × Option String) :=
  match stripGithubPrefix s with
  | none => none
  | some r =>
    match splitSlash r with
    | owner :: repo :: rest =>
      if owner = "" ∨ repo = "" then none
      else
        match rest with
        | [] => some (owner, repo, none, none)
        | _ =>
          let treeRoute : Option (Option String × Option String) :=
            match rest with
            | "tree" :: b :: more =>
              if b = "" then none
              else
                match more with
                | [] => some (some b, none)
                | _ =>
                  let sub := joinSlash more
                  if sub = "" then none else some (some b, some sub)
            | _ => none
          match treeRoute with
          | some (br, sub) => some (owner, repo, br, sub)
          | none =>
            let sub := joinSlash rest
            if sub = "" then none else some (owner, repo, none, some sub)
    | _ => none

/-- Regex pattern 2 on the input: returns (owner, raw repo, branch group). -/
def matchShorthand (s : String) : Option (String × String × Option String) :=
  match splitSlash s with
  | owner :: repo :: rest =>
    if owner = "" ∨ repo = "" then none
    else
      match rest with
      | [] => some (owner, repo, none)
      | _ =>
        let b := joinSlash rest
        if b = "" then none else some (owner, repo, some b)
  | _ => none

/-- `parseGitHubUrl` from dist/utils/config.js: try the full-URL pattern,
then the shorthand pattern, else throw `Invalid GitHub URL: <input>`. -/
def parseGitHubUrl (input : String) : Except String GitHubRef :=
  match matchFullUrl input with
  | some (o, r, br, sub) =>
    Except.ok { owner := o, repo := jsReplaceFirst r ".git" "",
                branch := br.getD "main", subpath := sub }
  | none =>
    match matchShorthand input with
    | some (o, r, br) =>
      Except.ok { owner := o, repo := jsReplaceFirst r ".git" "",
                  branch := br.getD "main", subpath := none }
    | none => Except.error ("Invalid GitHub URL: " ++ input)

/-- Spec-side comparison definition: strip only a *trailing* `.git`, the
behaviour the spec (and the code's own test name) describe. -/
def stripTrailingGitSpec (r : String) : String :=
  if ".git".data.isSuffixOf r.data then ⟨r.data.take (r.data.length - 4)⟩ else r

/-! ## Repository fetch (dist/utils/config.js: fetchRepo)

`fetchRepo` first treats the input as a local path; otherwise it parses it,
builds the branch list `['main', 'master']` when the parsed branch is `main`
(else just `[branch]`), and runs

    for (const b of branches) { response = await fetch(tarUrl); if (response.ok) break; }
    if (!response || !response.ok) throw new Error('Failed to fetch: ...');

`fetch` is modelled by an oracle giving, per branch, either a response
(`ok` / non-ok HTTP status) or a thrown network error (a rejected promise),
which propagates out of `fetchRepo` uncaught. -/

inductive FetchOutcome where
  | ok
  | httpError
  | netError
deriving DecidableEq, Repr

inductive RepoFetch where
  /-- the input named an existing local path and is returned resolved -/
  | localPath
  /-- the tarball for this branch downloaded and extracted; temp dir returned -/
  | fetched (branch : String)
  /-- `parseGitHubUrl` threw: `Invalid GitHub URL: <input>` -/
  | invalidRef (msg : String)
  /-- the final response was not ok: `Failed to fetch: ...` thrown -/
  | fetchError
  /-- a network error from `fetch` propagated uncaught -/
  | netThrown
deriving DecidableEq, Repr

/-- The `for (const b of branches)` download loop. An empty list or a list
ending in a non-ok response leaves `response` null/not-ok, hence the
`Failed to fetch` throw; a network error escapes immediately. -/
def fetchLoop (f : String → FetchOutcome) : List String → RepoFetch
  | [] => RepoFetch.fetchError
  | b :: rest =>
    match f b with
    | FetchOutcome.ok => RepoFetch.fetched b
    | FetchOutcome.netError => RepoFetch.netThrown
    | FetchOutcome.httpError => fetchLoop f rest

/-- `fetchRepo` with the filesystem probe (`fs.pathExists`) and the network
modelled as oracles. -/
def fetchRepo (pathExistsOracle : String → Bool) (f : String → FetchOutcome)
    (input : String) : RepoFetch :=
  if pathExistsOracle input = true then RepoFetch.localPath
  else
    match parseGitHubUrl input with
    | Except.error m => RepoFetch.invalidRef m
    | Except.ok ref =>
      fetchLoop f (if ref.branch = "main" then ["main", "master"] else [ref.branch])

/-! ## Link-or-copy executor (src/utils/link.ts: linkOrCopy)

The filesystem is a path-existence predicate; every mutating `fs-extra` call
the function issues is recorded in an operation trace (including symlink
attempts that fail, since the call was made).  `os.platform()`, symlink
failure and copy failure are environment oracles.  A thrown copy error is an
`Except.error`; a returned `LinkResult` is `Except.ok`. -/

abbrev FS := String → Bool

def addPath (fs : FS) (p : String) : FS := fun q => if q = p then true else fs q

def removePath (fs : FS) (p : String) : FS := fun q => if q = p then false else fs q

inductive FsOp where
  | remove (p : String)
  | ensureDir (p : String)
  | symlink (src tgt : String)
  | copy (src tgt : String)
deriving DecidableEq, Repr

structure LinkEnv where
  platform : String
  symlinkFails : String → String → Bool
  copyFails : String → String → Bool

structure LinkResult where
  method : String
  source : String
  target : String
  success : Bool
  error : Option String
deriving DecidableEq, Repr

structure LinkRun where
  /-- `Except.ok` = the function returned this `LinkResult`;
  `Except.error` = an exception (a failed copy) propagated. -/
  result : Except String LinkResult
  fs : FS
  ops : List FsOp

/-- Shallow embedding of `linkOrCopy(source, target, { method, force })`. -/
def linkOrCopy (env : LinkEnv) (fs0 : FS) (source target method : String)
    (force : Bool) : LinkRun :=
  -- Remove existing if force
  let fs1 := if force = true ∧ fs0 target = true then removePath fs0 target else fs0
  let ops1 : List FsOp :=
    if force = true ∧ fs0 target = true then [FsOp.remove target] else []
  -- Check if target exists
  if fs1 target = true then
    { result := Except.ok { method := method, source := source, target := target,
                            success := false, error := some "Target already exists" },
      fs := fs1, ops := ops1 }
  else
    -- Ensure parent directory exists
    let fs2 := addPath fs1 (dirname target)
    let ops2 := ops1 ++ [FsOp.ensureDir (dirname target)]
    let runCopy : FS → List FsOp → LinkRun := fun fs ops =>
      if env.copyFails source target = true then
        { result := Except.error "copy failed", fs := fs,
          ops := ops ++ [FsOp.copy source target] }
      else
        { result := Except.ok { method := "copy", source := source, target := target,
                                success := true, error := none },
          fs := addPath fs target, ops := ops ++ [FsOp.copy source target] }
    -- Try symlink on non-Windows
    if method = "symlink" ∧ env.platform ≠ "win32" then
      if env.symlinkFails source target = true then
        runCopy fs2 (ops2 ++ [FsOp.symlink source target])
      else
        { result := Except.ok { method := "symlink", source := source, target := target,
                                success := true, error := none },
          fs := addPath fs2 target, ops := ops2 ++ [FsOp.symlink source target] }
    else
      -- Fall back to copy
      runCopy fs2 ops2

/-! ## Install executor loop (commands/install.ts: installCommand, step 7)

For each target config, for each selected `(type, items)` entry, for each
item: in `install` mode an item whose existence-matrix entry for this target
is set is skipped; otherwise `linkOrCopy` is attempted, `success` counts as
installed, and a returned failure (re-thrown) or a thrown exception counts as
failed.  The fixed `method`/`force` arguments are absorbed into the
per-(source, targetPath) attempt oracle.  Besides the summary each run also
returns the list of (item id, targetPath) pairs actually attempted. -/

inductive Mode where
  | install
  | update
deriving DecidableEq, Repr

structure Item where
  id : String
  description : String
  path : String
deriving DecidableEq, Repr

structure TargetCfg where
  key : String
  name : String
  /-- artifact type ↦ the target's relative subdirectory for that type -/
  subdir : String → String

inductive AttemptOutcome where
  /-- `linkOrCopy` returned `success: true` -/
  | success
  /-- `linkOrCopy` returned `success: false` (the error is re-thrown) -/
  | failure (err : String)
  /-- `linkOrCopy` itself threw -/
  | thrown (err : String)
deriving DecidableEq, Repr

structure InstallSummary where
  target : String
  targetName : String
  installed : Nat
  skipped : Nat
  failed : Nat
deriving DecidableEq, Repr

/-- The body of the innermost loop of step 7, for one item. -/
def stepItem (mode : Mode) (cwd : String)
    (existsIn : String → String → String → Bool)
    (attempt : String → String → AttemptOutcome) (tc : TargetCfg) (ty : String)
    (acc : InstallSummary × List (String × String)) (item : Item) :
    InstallSummary × List (String × String) :=
  let targetDir := pathJoin cwd (tc.subdir ty)
  if mode = Mode.install ∧ existsIn ty item.id targetDir = true then
    ({ acc.1 with skipped := acc.1.skipped + 1 }, acc.2)
  else
    let sourcePath := dirname item.path
    let targetPath := pathJoin targetDir item.id
    match attempt sourcePath targetPath with
    | AttemptOutcome.success =>
      ({ acc.1 with installed := acc.1.installed + 1 }, acc.2 ++ [(item.id, targetPath)])
    | AttemptOutcome.failure _ =>
      ({ acc.1 with failed := acc.1.failed + 1 }, acc.2 ++ [(item.id, targetPath)])
    | AttemptOutcome.thrown _ =>
      ({ acc.1 with failed := acc.1.failed + 1 }, acc.2 ++ [(item.id, targetPath)])

/-- The loop over one `(type, items)` entry of `selected`. -/
def stepType (mode : Mode) (cwd : String)
    (existsIn : String → String → String → Bool)
    (attempt : String → String → AttemptOutcome) (tc : TargetCfg)
    (acc : InstallSummary × List (String × String)) (ti : String × List Item) :
    InstallSummary × List (String × String) :=
  ti.2.foldl (stepItem mode cwd existsIn attempt tc ti.1) acc

/-- One target's pass of step 7: fresh zeroed summary, then both loops. -/
def runTarget (mode : Mode) (cwd : String)
    (existsIn : String → String → String → Bool)
    (attempt : String → String → AttemptOutcome) (tc : TargetCfg)
    (selected : List (String × List Item)) :
    InstallSummary × List (String × String) :=
  selected.foldl (stepType mode cwd existsIn attempt tc)
    ({ target := tc.key, targetName := tc.name, installed := 0, skipped := 0, failed := 0 }, [])

/-- Step 7 over all targets, collecting the summaries in order. -/
def runInstall (mode : Mode) (cwd : String)
    (existsIn : String → String → String → Bool)
    (attempt : String → String → AttemptOutcome) (targets : List TargetCfg)
    (selected : List (String × List Item)) : List InstallSummary :=
  targets.map (fun tc => (runTarget mode cwd existsIn attempt tc selected).1)

/-- Total number of selected items across all artifact types. -/
def totalSelected (selected : List (String × List Item)) : Nat :=
  (selected.map (fun ti => ti.2.length)).sum

/-! ## Existence matrix and select-all filter
(src/utils/prompts.ts: selectItemsWithExistenceCheck)

The matrix maps each item id to the list of `(targetDir, exists)` entries,
where `exists` is `fs.pathExists(path.join(targetDir, item.id))`, probed
against the pre-operation filesystem. -/

/-- The existence matrix built in lines 121–130 of prompts.ts. -/
def buildExistence (pe : String → Bool) (items : List Item)
    (targetDirs : List String) : List (String × List (String × Bool)) :=
  items.map (fun item =>
    (item.id, targetDirs.map (fun d => (d, pe (pathJoin d item.id)))))

/-- Look up one item's row (`existsInTargets.get(itemId)`). -/
def lookupRow (m : List (String × List (String × Bool))) (id : String) :
    Option (List (String × Bool)) :=
  (m.find? (fun e => e.1 == id)).map (fun e => e.2)

/-- Look up one `(item, targetDir)` entry of the matrix. -/
def lookupEntry (m : List (String × List (String × Bool))) (id dir : String) :
    Option Bool :=
  (lookupRow m id).bind (fun row => (row.find? (fun e => e.1 == dir)).map (fun e => e.2))

/-- `existsInAny` from prompts.ts: the row has a set entry (missing row is
`undefined`, hence false). -/
def existsInAny (m : List (String × List (String × Bool))) (id : String) : Bool :=
  match lookupRow m id with
  | none => false
  | some row => row.any (fun e => e.2)

/-- The `selectAll` branch of `selectItemsWithExistenceCheck`. -/
def selectAllItems (mode : Mode) (items : List Item)
    (m : List (String × List (String × Bool))) : List Item :=
  if mode = Mode.install then items.filter (fun i => !(existsInAny m i.id))
  else items

/-! ## Persisted configuration (src/utils/config.ts: getConfig / setConfig)

The persisted JSON document holds at most `defaultTarget` and `linkMethod`.
`Option` on a `ConfigUpdate` field models presence of that key in the
`Partial<Config>` updates object; `{ ...config, ...updates }` overrides
exactly the present keys.  The store state is `Option Config`: `none` models
a missing (or unreadable) file, which `getConfig` turns into `{}`. -/

structure Config where
  defaultTarget : Option String
  linkMethod : Option String
deriving DecidableEq, Repr

structure ConfigUpdate where
  defaultTarget : Option String
  linkMethod : Option String
deriving DecidableEq, Repr

/-- `getConfig`: the persisted document, or `{}` when absent/unreadable. -/
def getConfig (persisted : Option Config) : Config :=
  persisted.getD { defaultTarget := none, linkMethod := none }

/-- The JS spread `{ ...config, ...updates }`. -/
def mergeConfig (c : Config) (u : ConfigUpdate) : Config :=
  { defaultTarget :=
      match u.defaultTarget with
      | some v => some v
      | none => c.defaultTarget,
    linkMethod :=
      match u.linkMethod with
      | some v => some v
      | none => c.linkMethod }

/-- `setConfig`: read, merge, write the document back. -/
def setConfig (persisted : Option Config) (u : ConfigUpdate) : Option Config :=
  some (mergeConfig (getConfig persisted) u)

/-! ## Statement vocabulary: aggregates of the executor loop -/

/-- Sum of a summary's three counters. -/
def sumS (s : InstallSummary) : Nat := s.installed + s.skipped + s.failed

/-- How many selected (type, item) pairs the existence matrix marks as already
present in the given target. -/
def skippedCount (cwd : String) (existsIn : String → String → String → Bool)
    (tc : TargetCfg) : List (String × List Item) → Nat
  | [] => 0
  | ti :: rest =>
    ti.2.countP (fun it => existsIn ti.1 it.id (pathJoin cwd (tc.subdir ti.1)))
      + skippedCount cwd existsIn tc rest

/-- The (item id, targetPath) pairs whose link-or-copy operation the executor
actually attempts for the given target: exactly those the existence matrix
marks as absent. -/
def attemptedPairs (cwd : String) (existsIn : String → String → String → Bool)
    (tc : TargetCfg) : List (String × List Item) → List (String × String)
  | [] => []
  | ti :: rest =>
    ti.2.filterMap (fun it =>
      if existsIn ti.1 it.id (pathJoin cwd (tc.subdir ti.1)) = true then none
      else some (it.id, pathJoin (pathJoin cwd (tc.subdir ti.1)) it.id))
      ++ attemptedPairs cwd existsIn tc rest

/-! ## Theorems -/

/-- Claim C7: the claim says `parseGitHubUrl` strips a *trailing* `.git` from
the repo segment, but the source uses `String.replace('.git', '')`, which
removes the *first* occurrence of `.git` anywhere; the code's own test
("strips .git suffix from repo") documents suffix semantics.  At the failing
input `https://github.com/owner/my.github.io` the code returns repo
`myhub.io`, while trailing-suffix stripping (the claim and the test's intent)
leaves `my.github.io` unchanged.  The remaining conjuncts confirm the rest of
the claim at representative inputs: full-URL priority with tree/branch and
subpath extraction, branch defaulting, a genuinely trailing `.git`, and the
shorthand third segment read as a branch, never a subpath. -/
theorem c7_dotgit_not_trailing_only :
    parseGitHubUrl "https://github.com/owner/my.github.io"
      = Except.ok { owner := "owner", repo := "myhub.io", branch := "main", subpath := none }
    ∧ stripTrailingGitSpec "my.github.io" = "my.github.io"
    ∧ ("myhub.io" : String) ≠ "my.github.io"
    ∧ parseGitHubUrl "https://github.com/owner/repo.git"
      = Except.ok { owner := "owner", repo := "repo", branch := "main", subpath := none }
    ∧ parseGitHubUrl "https://github.com/owner/repo/tree/dev/src/utils"
      = Except.ok { owner := "owner", repo := "repo", branch := "dev", subpath := some "src/utils" }
    ∧ parseGitHubUrl "https://github.com/owner/repo"
      = Except.ok { owner := "owner", repo := "repo", branch := "main", subpath := none }
    ∧ parseGitHubUrl "owner/repo/develop"
      = Except.ok { owner := "owner", repo := "repo", branch := "develop", subpath := none } := by
  refine ⟨rfl, rfl, ?_, rfl, rfl, rfl, rfl⟩
  decide

/-- Claim C9: any input matched by neither regex (the empty string included)
makes `parseGitHubUrl` fail with `Invalid GitHub URL: <input>`, a message
containing the original input verbatim. -/
theorem c9_invalid_reference_message (input : String)
    (h1 : matchFullUrl input = none) (h2 : matchShorthand input = none) :
    parseGitHubUrl input = Except.error ("Invalid GitHub URL: " ++ input)
    ∧ ∃ p, "Invalid GitHub URL: " ++ input = p ++ input := by
  refine ⟨?_, "Invalid GitHub URL: ", rfl⟩
  unfold parseGitHubUrl
  rw [h1, h2]

/-- Witness for C9 at the empty string: neither pattern matches, and the
error message is the fixed text followed by the input. -/
theorem c9_invalid_reference_message_witness :
    parseGitHubUrl "" = Except.error ("Invalid GitHub URL: " ++ "") :=
  (c9_invalid_reference_message "" rfl rfl).1

/-- Counterexample to claim C8: when the tarball fetch for `main` fails with
a *network error* (a rejected `fetch` promise), the loop neither retries
`master` nor throws the `Failed to fetch` error — the network exception
propagates uncaught.  Here `master` would succeed, yet the run ends in the
propagated exception, not in `fetched "master"` and not in the FetchError. -/
theorem c8_counterexample :
    fetchRepo (fun _ => false)
        (fun b => if b = "master" then FetchOutcome.ok else FetchOutcome.netError)
        "owner/repo" = RepoFetch.netThrown
    ∧ RepoFetch.netThrown ≠ RepoFetch.fetched "master"
    ∧ RepoFetch.netThrown ≠ RepoFetch.fetchError := by
  refine ⟨rfl, ?_, ?_⟩ <;> decide

/-- Claim C8 as amended: with the parsed branch `main`, a *non-ok HTTP
response* for `main` triggers exactly one retry with `master`; the
`Failed to fetch` error is thrown when every attempted branch responds
non-ok; a network error from `fetch` propagates immediately, with no
`master` retry and no FetchError. -/
theorem c8_branch_fallback (pathExistsOracle : String → Bool)
    (f : String → FetchOutcome) (input : String) (ref : GitHubRef)
    (hpe : pathExistsOracle input = false)
    (hparse : parseGitHubUrl input = Except.ok ref)
    (hbr : ref.branch = "main") :
    (f "main" = FetchOutcome.ok →
      fetchRepo pathExistsOracle f input = RepoFetch.fetched "main")
    ∧ (f "main" = FetchOutcome.httpError → f "master" = FetchOutcome.ok →
        fetchRepo pathExistsOracle f input = RepoFetch.fetched "master")
    ∧ (f "main" = FetchOutcome.httpError → f "master" = FetchOutcome.httpError →
        fetchRepo pathExistsOracle f input = RepoFetch.fetchError)
    ∧ (f "main" = FetchOutcome.netError →
        fetchRepo pathExistsOracle f input = RepoFetch.netThrown) := by
  refine ⟨?_, ?_, ?_, ?_⟩ <;>
    intro h1 <;>
    first
      | (intro h2; simp [fetchRepo, fetchLoop, hpe, hparse, hbr, h1, h2])
      | simp [fetchRepo, fetchLoop, hpe, hparse, hbr, h1]

/-- Witness for C8 (amended): `main` responds with a non-ok status, the
retry with `master` succeeds. -/
theorem c8_branch_fallback_witness :
    fetchRepo (fun _ => false)
        (fun b => if b = "main" then FetchOutcome.httpError else FetchOutcome.ok)
        "owner/repo" = RepoFetch.fetched "master" :=
  (c8_branch_fallback (fun _ => false)
      (fun b => if b = "main" then FetchOutcome.httpError else FetchOutcome.ok)
      "owner/repo" { owner := "owner", repo := "repo", branch := "main", subpath := none }
      rfl rfl rfl).2.1 rfl rfl

/-- Claim C10: `setConfig` performs read-merge-write; any field absent from
the updates object keeps its previously persisted value. -/
theorem c10_config_partial_update (persisted : Option Config) (u : ConfigUpdate) :
    (u.defaultTarget = none →
      (getConfig (setConfig persisted u)).defaultTarget
        = (getConfig persisted).defaultTarget)
    ∧ (u.linkMethod = none →
      (getConfig (setConfig persisted u)).linkMethod
        = (getConfig persisted).linkMethod) := by
  constructor <;> intro h <;> simp [setConfig, getConfig, mergeConfig, h]

/-- Witness for C10: setting `linkMethod` alone preserves an existing
`defaultTarget`. -/
theorem c10_config_partial_update_witness :
    (getConfig (setConfig (some { defaultTarget := some ".claude", linkMethod := none })
        { defaultTarget := none, linkMethod := some "copy" })).defaultTarget
      = some ".claude" :=
  (c10_config_partial_update
      (some { defaultTarget := some ".claude", linkMethod := none })
      { defaultTarget := none, linkMethod := some "copy" }).1 rfl

/-- Helper: with `force = false` and a target that already exists, the whole
run is the early `Target already exists` return — the filesystem untouched
and the operation trace empty. -/
theorem linkOrCopy_exists_noforce (env : LinkEnv) (fs : FS)
    (source target method : String) (h : fs target = true) :
    linkOrCopy env fs source target method false =
      { result := Except.ok { method := method, source := source, target := target,
                              success := false, error := some "Target already exists" },
        fs := fs, ops := [] } := by
  simp [linkOrCopy, h]

/-- Helper: with `force = false`, a fresh target and a copy that does not
throw, the run succeeds and the final filesystem is the original plus the
parent directory and the target itself. -/
theorem linkOrCopy_fresh_success (env : LinkEnv) (fs0 : FS)
    (source target method : String) (h0 : fs0 target = false)
    (hcopy : env.copyFails source target = false) :
    (∃ r, (linkOrCopy env fs0 source target method false).result = Except.ok r ∧
        r.success = true)
    ∧ (linkOrCopy env fs0 source target method false).fs
        = addPath (addPath fs0 (dirname target)) target := by
  by_cases hm : method = "symlink" ∧ env.platform ≠ "win32"
  · by_cases hsf : env.symlinkFails source target = true
    · exact ⟨⟨{ method := "copy", source := source, target := target,
                success := true, error := none },
        by simp [linkOrCopy, h0, hm, hsf, hcopy], rfl⟩,
        by simp [linkOrCopy, h0, hm, hsf, hcopy]⟩
    · exact ⟨⟨{ method := "symlink", source := source, target := target,
                success := true, error := none },
        by simp [linkOrCopy, h0, hm, hsf], rfl⟩,
        by simp [linkOrCopy, h0, hm, hsf]⟩
  · exact ⟨⟨{ method := "copy", source := source, target := target,
              success := true, error := none },
      by simp [linkOrCopy, h0, hm, hcopy], rfl⟩,
      by simp [linkOrCopy, h0, hm, hcopy]⟩

/-- Claim C2: starting from a filesystem without the target (and a copy that
does not throw), the first `force = false` call succeeds; the second call on
the resulting filesystem returns the non-exceptional `Target already exists`
failure, leaves the filesystem unchanged and issues no mutating call at all
(no removal, no directory creation, no symlink, no copy). -/
theorem c2_idempotence (env : LinkEnv) (fs0 : FS) (source target method : String)
    (h0 : fs0 target = false) (hcopy : env.copyFails source target = false) :
    (∃ r, (linkOrCopy env fs0 source target method false).result = Except.ok r ∧
        r.success = true)
    ∧ linkOrCopy env (linkOrCopy env fs0 source target method false).fs
        source target method false
      = { result := Except.ok { method := method, source := source, target := target,
                                success := false, error := some "Target already exists" },
          fs := (linkOrCopy env fs0 source target method false).fs,
          ops := [] } := by
  obtain ⟨hok, hfs⟩ := linkOrCopy_fresh_success env fs0 source target method h0 hcopy
  refine ⟨hok, ?_⟩
  apply linkOrCopy_exists_noforce
  rw [hfs]
  simp [addPath]

/-- Witness for C2 on a concrete environment, filesystem and pair: the
second call is the early non-exceptional failure, unchanged filesystem,
empty operation trace. -/
theorem c2_idempotence_witness :
    linkOrCopy ⟨"linux", fun _ _ => false, fun _ _ => false⟩
        ((linkOrCopy ⟨"linux", fun _ _ => false, fun _ _ => false⟩ (fun _ => false)
          "/repo/skills/foo" "/proj/.claude/skills/foo" "symlink" false).fs)
        "/repo/skills/foo" "/proj/.claude/skills/foo" "symlink" false
      = { result := Except.ok { method := "symlink", source := "/repo/skills/foo",
                                target := "/proj/.claude/skills/foo",
                                success := false, error := some "Target already exists" },
          fs := (linkOrCopy ⟨"linux", fun _ _ => false, fun _ _ => false⟩ (fun _ => false)
                  "/repo/skills/foo" "/proj/.claude/skills/foo" "symlink" false).fs,
          ops := [] } :=
  (c2_idempotence ⟨"linux", fun _ _ => false, fun _ _ => false⟩ (fun _ => false)
    "/repo/skills/foo" "/proj/.claude/skills/foo" "symlink" rfl rfl).2

/-- Helper for C3: every successful result records the strategy whose
filesystem call actually created the target — `symlink` with a symlink call
and no copy call in the trace, or `copy` with a copy call in the trace. -/
theorem linkOrCopy_method_recorded (env : LinkEnv) (fs0 : FS)
    (source target method : String) (force : Bool) (r : LinkResult)
    (hok : (linkOrCopy env fs0 source target method force).result = Except.ok r)
    (hsucc : r.success = true) :
    (r.method = "symlink"
      ∧ FsOp.symlink source target ∈ (linkOrCopy env fs0 source target method force).ops
      ∧ FsOp.copy source target ∉ (linkOrCopy env fs0 source target method force).ops)
    ∨ (r.method = "copy"
      ∧ FsOp.copy source target ∈ (linkOrCopy env fs0 source target method force).ops) := by
  simp only [linkOrCopy] at hok ⊢
  split_ifs at hok ⊢ <;> (try cases hok) <;> simp_all [removePath, addPath]

/-- Claim C3: (1) every success records the method actually used;
(2) on the Windows platform a requested `symlink` never issues a symlink
call and any success records method `copy`; (3) on other platforms, when
symlink creation fails (and the copy does not throw), the run still succeeds
with recorded method `copy`, the target exists afterwards, and a copy call
is in the trace. -/
theorem c3_platform_and_fallback (env : LinkEnv) (fs0 : FS)
    (source target method : String) (force : Bool) :
    (∀ r, (linkOrCopy env fs0 source target method force).result = Except.ok r →
      r.success = true →
      (r.method = "symlink"
        ∧ FsOp.symlink source target ∈ (linkOrCopy env fs0 source target method force).ops
        ∧ FsOp.copy source target ∉ (linkOrCopy env fs0 source target method force).ops)
      ∨ (r.method = "copy"
        ∧ FsOp.copy source target ∈ (linkOrCopy env fs0 source target method force).ops))
    ∧ (env.platform = "win32" →
        FsOp.symlink source target ∉ (linkOrCopy env fs0 source target "symlink" force).ops
        ∧ ∀ r, (linkOrCopy env fs0 source target "symlink" force).result = Except.ok r →
            r.success = true → r.method = "copy")
    ∧ (env.platform ≠ "win32" → env.symlinkFails source target = true →
        env.copyFails source target = false → (force = true ∨ fs0 target = false) →
        (linkOrCopy env fs0 source target "symlink" force).result
          = Except.ok { method := "copy", source := source, target := target,
                        success := true, error := none }
        ∧ (linkOrCopy env fs0 source target "symlink" force).fs target = true
        ∧ FsOp.copy source target ∈ (linkOrCopy env fs0 source target "symlink" force).ops) := by
  refine ⟨fun r hok hsucc =>
    linkOrCopy_method_recorded env fs0 source target method force r hok hsucc, ?_, ?_⟩
  · intro hw
    constructor
    · simp only [linkOrCopy]
      split_ifs <;> simp_all [removePath, addPath]
    · intro r hok hsucc
      simp only [linkOrCopy] at hok
      split_ifs at hok <;> (try cases hok) <;> simp_all [removePath, addPath]
  · intro hw hsf hcf hfe
    by_cases hf : force = true ∧ fs0 target = true
    · simp [linkOrCopy, hf, hw, hsf, hcf, removePath, addPath]
    · have h0 : fs0 target = false := by
        rcases hfe with hf1 | h0
        · rcases Bool.eq_false_or_eq_true (fs0 target) with h | h
          · exact absurd ⟨hf1, h⟩ hf
          · exact h
        · exact h0
      simp [linkOrCopy, hf, h0, hw, hsf, hcf, addPath]

/-- Witness for C3: on a non-Windows platform whose symlink call always
fails, a fresh install succeeds with recorded method `copy`, the target
exists afterwards, and a copy call is in the trace. -/
theorem c3_platform_and_fallback_witness :
    (linkOrCopy ⟨"linux", fun _ _ => true, fun _ _ => false⟩ (fun _ => false)
        "/repo/skills/foo" "/proj/.cursor/skills/foo" "symlink" false).result
      = Except.ok { method := "copy", source := "/repo/skills/foo",
                    target := "/proj/.cursor/skills/foo", success := true, error := none }
    ∧ (linkOrCopy ⟨"linux", fun _ _ => true, fun _ _ => false⟩ (fun _ => false)
        "/repo/skills/foo" "/proj/.cursor/skills/foo" "symlink" false).fs
        "/proj/.cursor/skills/foo" = true
    ∧ FsOp.copy "/repo/skills/foo" "/proj/.cursor/skills/foo"
        ∈ (linkOrCopy ⟨"linux", fun _ _ => true, fun _ _ => false⟩ (fun _ => false)
            "/repo/skills/foo" "/proj/.cursor/skills/foo" "symlink" false).ops :=
  (c3_platform_and_fallback ⟨"linux", fun _ _ => true, fun _ _ => false⟩ (fun _ => false)
      "/repo/skills/foo" "/proj/.cursor/skills/foo" "symlink" false).2.2
    (by decide) rfl rfl (Or.inr rfl)

/-- Helper: one executor step adds exactly 1 to exactly one counter. -/
theorem stepItem_sum (mode : Mode) (cwd : String)
    (existsIn : String → String → String → Bool)
    (attempt : String → String → AttemptOutcome) (tc : TargetCfg) (ty : String)
    (acc : InstallSummary × List (String × String)) (item : Item) :
    sumS (stepItem mode cwd existsIn attempt tc ty acc item).1 = sumS acc.1 + 1 := by
  by_cases hx : mode = Mode.install ∧ existsIn ty item.id (pathJoin cwd (tc.subdir ty)) = true
  · simp only [stepItem, hx, if_pos]
    simp [sumS]
    omega
  · cases ho : attempt (dirname item.path) (pathJoin (pathJoin cwd (tc.subdir ty)) item.id) <;>
      simp [stepItem, hx, ho, sumS] <;> omega

/-- Helper: one executor step never decreases any counter. -/
theorem stepItem_mono (mode : Mode) (cwd : String)
    (existsIn : String → String → String → Bool)
    (attempt : String → String → AttemptOutcome) (tc : TargetCfg) (ty : String)
    (acc : InstallSummary × List (String × String)) (item : Item) :
    acc.1.installed ≤ (stepItem mode cwd existsIn attempt tc ty acc item).1.installed
    ∧ acc.1.skipped ≤ (stepItem mode cwd existsIn attempt tc ty acc item).1.skipped
    ∧ acc.1.failed ≤ (stepItem mode cwd existsIn attempt tc ty acc item).1.failed := by
  by_cases hx : mode = Mode.install ∧ existsIn ty item.id (pathJoin cwd (tc.subdir ty)) = true
  · simp [stepItem, hx]
  · cases ho : attempt (dirname item.path) (pathJoin (pathJoin cwd (tc.subdir ty)) item.id) <;>
      simp [stepItem, hx, ho]

/-- Helper: the item loop adds the item count to the counter sum. -/
theorem foldItems_sum (mode : Mode) (cwd : String)
    (existsIn : String → String → String → Bool)
    (attempt : String → String → AttemptOutcome) (tc : TargetCfg) (ty : String) :
    ∀ (items : List Item) (acc : InstallSummary × List (String × String)),
      sumS (items.foldl (stepItem mode cwd existsIn attempt tc ty) acc).1
        = sumS acc.1 + items.length
  | [], acc => by simp
  | it :: items, acc => by
    simp only [List.foldl_cons, List.length_cons]
    rw [foldItems_sum mode cwd existsIn attempt tc ty items _, stepItem_sum]
    omega

/-- Helper: the type loop adds the total selected count to the counter sum. -/
theorem foldTypes_sum (mode : Mode) (cwd : String)
    (existsIn : String → String → String → Bool)
    (attempt : String → String → AttemptOutcome) (tc : TargetCfg) :
    ∀ (selected : List (String × List Item)) (acc : InstallSummary × List (String × String)),
      sumS ((selected.foldl (stepType mode cwd existsIn attempt tc) acc).1)
        = sumS acc.1 + totalSelected selected
  | [], acc => by simp [totalSelected]
  | ti :: rest, acc => by
    simp only [List.foldl_cons]
    rw [foldTypes_sum mode cwd existsIn attempt tc rest _]
    unfold stepType
    rw [foldItems_sum]
    simp [totalSelected]
    omega

/-- Claim C6: after a target's loop completes, the three counters sum to the
total number of selected items across all artifact types; moreover each
(item, target) step adds exactly 1 to exactly one counter and never
decrements any of them. -/
theorem c6_counter_invariant (mode : Mode) (cwd : String)
    (existsIn : String → String → String → Bool)
    (attempt : String → String → AttemptOutcome) (targets : List TargetCfg)
    (selected : List (String × List Item)) :
    (∀ s ∈ runInstall mode cwd existsIn attempt targets selected,
        s.installed + s.skipped + s.failed = totalSelected selected)
    ∧ (∀ (tc : TargetCfg) (ty : String)
        (acc : InstallSummary × List (String × String)) (item : Item),
        (stepItem mode cwd existsIn attempt tc ty acc item).1.installed
            + (stepItem mode cwd existsIn attempt tc ty acc item).1.skipped
            + (stepItem mode cwd existsIn attempt tc ty acc item).1.failed
          = acc.1.installed + acc.1.skipped + acc.1.failed + 1
        ∧ acc.1.installed ≤ (stepItem mode cwd existsIn attempt tc ty acc item).1.installed
        ∧ acc.1.skipped ≤ (stepItem mode cwd existsIn attempt tc ty acc item).1.skipped
        ∧ acc.1.failed ≤ (stepItem mode cwd existsIn attempt tc ty acc item).1.failed) := by
  constructor
  · intro s hs
    simp only [runInstall, List.mem_map] at hs
    obtain ⟨tc, _, rfl⟩ := hs
    have h := foldTypes_sum mode cwd existsIn attempt tc selected
      ({ target := tc.key, targetName := tc.name,
         installed := 0, skipped := 0, failed := 0 }, [])
    simpa [runTarget, sumS] using h
  · intro tc ty acc item
    refine ⟨?_, stepItem_mono mode cwd existsIn attempt tc ty acc item⟩
    have h := stepItem_sum mode cwd existsIn attempt tc ty acc item
    simpa [sumS] using h

/-- Witness for C6: one item of one type installed to one target; the
resulting summary has counters summing to the selected total. -/
theorem c6_counter_invariant_witness :
    ({ target := "t1", targetName := "T1",
       installed := 1, skipped := 0, failed := 0 } : InstallSummary).installed
      + ({ target := "t1", targetName := "T1",
           installed := 1, skipped := 0, failed := 0 } : InstallSummary).skipped
      + ({ target := "t1", targetName := "T1",
           installed := 1, skipped := 0, failed := 0 } : InstallSummary).failed
      = totalSelected
          [("skills", [{ id := "foo", description := "", path := "/r/skills/foo/SKILL.md" }])] :=
  (c6_counter_invariant Mode.install "/p" (fun _ _ _ => false) (fun _ _ => AttemptOutcome.success)
      [{ key := "t1", name := "T1", subdir := fun _ => "t1/skills" }]
      [("skills", [{ id := "foo", description := "", path := "/r/skills/foo/SKILL.md" }])]).1
    { target := "t1", targetName := "T1", installed := 1, skipped := 0, failed := 0 }
    (by decide)

/-- Helper: in install mode the item loop adds to `skipped` exactly the
number of items the existence matrix marks as present in this target. -/
theorem foldItems_skipped (cwd : String) (existsIn : String → String → String → Bool)
    (attempt : String → String → AttemptOutcome) (tc : TargetCfg) (ty : String) :
    ∀ (items : List Item) (acc : InstallSummary × List (String × String)),
      ((items.foldl (stepItem Mode.install cwd existsIn attempt tc ty) acc).1).skipped
        = acc.1.skipped
          + items.countP (fun it => existsIn ty it.id (pathJoin cwd (tc.subdir ty)))
  | [], acc => by simp
  | it :: items, acc => by
    simp only [List.foldl_cons, List.countP_cons]
    rw [foldItems_skipped cwd existsIn attempt tc ty items _]
    by_cases hx : existsIn ty it.id (pathJoin cwd (tc.subdir ty)) = true
    · simp [stepItem, hx]
      omega
    · cases ho : attempt (dirname it.path) (pathJoin (pathJoin cwd (tc.subdir ty)) it.id) <;>
        simp [stepItem, hx, ho]

/-- Helper: in install mode the item loop appends to the attempted-pair
trace exactly the items the existence matrix marks as absent. -/
theorem foldItems_trace (cwd : String) (existsIn : String → String → String → Bool)
    (attempt : String → String → AttemptOutcome) (tc : TargetCfg) (ty : String) :
    ∀ (items : List Item) (acc : InstallSummary × List (String × String)),
      (items.foldl (stepItem Mode.install cwd existsIn attempt tc ty) acc).2
        = acc.2 ++ items.filterMap (fun it =>
            if existsIn ty it.id (pathJoin cwd (tc.subdir ty)) = true then none
            else some (it.id, pathJoin (pathJoin cwd (tc.subdir ty)) it.id))
  | [], acc => by simp
  | it :: items, acc => by
    simp only [List.foldl_cons, List.filterMap_cons]
    rw [foldItems_trace cwd existsIn attempt tc ty items _]
    by_cases hx : existsIn ty it.id (pathJoin cwd (tc.subdir ty)) = true
    · simp [stepItem, hx]
    · cases ho : attempt (dirname it.path) (pathJoin (pathJoin cwd (tc.subdir ty)) it.id) <;>
        simp [stepItem, hx, ho]

/-- Helper: the type loop adds `skippedCount` to the skipped counter. -/
theorem foldTypes_skipped (cwd : String) (existsIn : String → String → String → Bool)
    (attempt : String → String → AttemptOutcome) (tc : TargetCfg) :
    ∀ (selected : List (String × List Item)) (acc : InstallSummary × List (String × String)),
      ((selected.foldl (stepType Mode.install cwd existsIn attempt tc) acc).1).skipped
        = acc.1.skipped + skippedCount cwd existsIn tc selected
  | [], acc => by simp [skippedCount]
  | ti :: rest, acc => by
    simp only [List.foldl_cons]
    rw [foldTypes_skipped cwd existsIn attempt tc rest _]
    unfold stepType
    rw [foldItems_skipped]
    simp [skippedCount]
    omega

/-- Helper: the type loop appends `attemptedPairs` to the trace. -/
theorem foldTypes_trace (cwd : String) (existsIn : String → String → String → Bool)
    (attempt : String → String → AttemptOutcome) (tc : TargetCfg) :
    ∀ (selected : List (String × List Item)) (acc : InstallSummary × List (String × String)),
      (selected.foldl (stepType Mode.install cwd existsIn attempt tc) acc).2
        = acc.2 ++ attemptedPairs cwd existsIn tc selected
  | [], acc => by simp [attemptedPairs]
  | ti :: rest, acc => by
    simp only [List.foldl_cons]
    rw [foldTypes_trace cwd existsIn attempt tc rest _]
    unfold stepType
    rw [foldItems_trace]
    simp [attemptedPairs]

/-- Claim C1: in install mode, the executor skips exactly the (item, target)
pairs whose existence-matrix entry is set — `skipped` counts them and the
link-or-copy operation is attempted exactly for the complementary pairs —
and installing one item to two targets where it pre-exists only in the first
yields skipped = 1 for target 1 and installed = 1 for target 2. -/
theorem c1_skip_preexisting (cwd : String)
    (existsIn : String → String → String → Bool)
    (attempt : String → String → AttemptOutcome) (tc : TargetCfg)
    (selected : List (String × List Item)) (ty : String) (item : Item)
    (tc1 tc2 : TargetCfg) :
    ((runTarget Mode.install cwd existsIn attempt tc selected).1.skipped
        = skippedCount cwd existsIn tc selected
      ∧ (runTarget Mode.install cwd existsIn attempt tc selected).2
        = attemptedPairs cwd existsIn tc selected)
    ∧ (existsIn ty item.id (pathJoin cwd (tc1.subdir ty)) = true →
        existsIn ty item.id (pathJoin cwd (tc2.subdir ty)) = false →
        attempt (dirname item.path) (pathJoin (pathJoin cwd (tc2.subdir ty)) item.id)
          = AttemptOutcome.success →
        runInstall Mode.install cwd existsIn attempt [tc1, tc2] [(ty, [item])]
          = [{ target := tc1.key, targetName := tc1.name,
               installed := 0, skipped := 1, failed := 0 },
             { target := tc2.key, targetName := tc2.name,
               installed := 1, skipped := 0, failed := 0 }]) := by
  refine ⟨⟨?_, ?_⟩, ?_⟩
  · have h := foldTypes_skipped cwd existsIn attempt tc selected
      ({ target := tc.key, targetName := tc.name,
         installed := 0, skipped := 0, failed := 0 }, [])
    simpa [runTarget] using h
  · have h := foldTypes_trace cwd existsIn attempt tc selected
      ({ target := tc.key, targetName := tc.name,
         installed := 0, skipped := 0, failed := 0 }, [])
    simpa [runTarget] using h
  · intro h1 h2 h3
    simp [runInstall, runTarget, stepType, stepItem, h1, h2, h3]

/-- Witness for C1, scenario D: one item, two targets, pre-existing only in
the first; target 1 ends with skipped = 1, target 2 with installed = 1. -/
theorem c1_skip_preexisting_witness :
    runInstall Mode.install "/p"
        (fun _ _ d => d == "/p/t1/skills")
        (fun _ _ => AttemptOutcome.success)
        [{ key := "t1", name := "T1", subdir := fun _ => "t1/skills" },
         { key := "t2", name := "T2", subdir := fun _ => "t2/skills" }]
        [("skills", [{ id := "foo", description := "", path := "/r/skills/foo/SKILL.md" }])]
      = [{ target := "t1", targetName := "T1", installed := 0, skipped := 1, failed := 0 },
         { target := "t2", targetName := "T2", installed := 1, skipped := 0, failed := 0 }] :=
  (c1_skip_preexisting "/p" (fun _ _ d => d == "/p/t1/skills")
      (fun _ _ => AttemptOutcome.success)
      { key := "t1", name := "T1", subdir := fun _ => "t1/skills" }
      [("skills", [{ id := "foo", description := "", path := "/r/skills/foo/SKILL.md" }])]
      "skills" { id := "foo", description := "", path := "/r/skills/foo/SKILL.md" }
      { key := "t1", name := "T1", subdir := fun _ => "t1/skills" }
      { key := "t2", name := "T2", subdir := fun _ => "t2/skills" }).2
    (by decide) (by decide) rfl

/-- Helper: the row the matrix stores for an id occurring among the items is
the probe result for every target directory in order. -/
theorem lookupRow_buildExistence (pe : String → Bool) (dirs : List String) (id : String) :
    ∀ (items : List Item), (∃ it ∈ items, it.id = id) →
      lookupRow (buildExistence pe items dirs) id
        = some (dirs.map (fun d => (d, pe (pathJoin d id)))) := by
  intro items
  induction items with
  | nil => rintro ⟨it, hmem, _⟩; exact absurd hmem (List.not_mem_nil it)
  | cons a items ih =>
    rintro ⟨it, hmem, hid⟩
    by_cases ha : a.id = id
    · simp only [buildExistence, List.map_cons, lookupRow]
      rw [List.find?_cons_of_pos]
      · simp [ha]
      · simp [ha]
    · have h2 : ∃ x ∈ items, x.id = id := by
        rcases List.mem_cons.mp hmem with rfl | h
        · exact absurd hid ha
        · exact ⟨it, h, hid⟩
      have hrec := ih h2
      simp only [buildExistence, List.map_cons, lookupRow] at hrec ⊢
      rw [List.find?_cons_of_neg]
      · exact hrec
      · simp [ha]

/-- Helper: searching a row for a directory that occurs in it returns that
directory's probe result. -/
theorem find?_entry (pe : String → Bool) (id : String) :
    ∀ (dirs : List String) (dir : String), dir ∈ dirs →
      ((dirs.map (fun d => (d, pe (pathJoin d id)))).find? (fun e => e.1 == dir))
        = some (dir, pe (pathJoin dir id)) := by
  intro dirs
  induction dirs with
  | nil => intro dir h; exact absurd h (List.not_mem_nil dir)
  | cons d ds ih =>
    intro dir h
    by_cases hd : d = dir
    · subst hd
      simp only [List.map_cons]
      rw [List.find?_cons_of_pos]
      simp
    · simp only [List.map_cons]
      rw [List.find?_cons_of_neg]
      · refine ih dir ?_
        rcases List.mem_cons.mp h with h1 | h1
        · exact absurd h1.symm hd
        · exact h1
      · simp [hd]

/-- Helper: the full (id, dir) lookup of the existence matrix. -/
theorem lookupEntry_buildExistence (pe : String → Bool) (items : List Item)
    (dirs : List String) (id dir : String)
    (hid : ∃ it ∈ items, it.id = id) (hdir : dir ∈ dirs) :
    lookupEntry (buildExistence pe items dirs) id dir = some (pe (pathJoin dir id)) := by
  unfold lookupEntry
  rw [lookupRow_buildExistence pe dirs id items hid]
  simp only [Option.bind_eq_bind, Option.some_bind]
  rw [find?_entry pe id dirs dir hdir]
  rfl

/-- Claim C4: the matrix entry for (item, targetDir) is exactly the
filesystem probe of `<targetDir>/<item.id>`; consequently, when the item's
path exists only under target `dj`, the (item, dj) entry is true and every
other target's entry for that item is false. -/
theorem c4_existence_matrix (pe : String → Bool) (items : List Item)
    (dirs : List String) (item : Item) (dj : String) (hitem : item ∈ items) :
    (∀ d ∈ dirs, lookupEntry (buildExistence pe items dirs) item.id d
        = some (pe (pathJoin d item.id)))
    ∧ (pe (pathJoin dj item.id) = true →
        (∀ d ∈ dirs, d ≠ dj → pe (pathJoin d item.id) = false) →
        (dj ∈ dirs → lookupEntry (buildExistence pe items dirs) item.id dj = some true)
        ∧ ∀ d ∈ dirs, d ≠ dj →
            lookupEntry (buildExistence pe items dirs) item.id d = some false) := by
  have hid : ∃ it ∈ items, it.id = item.id := ⟨item, hitem, rfl⟩
  constructor
  · intro d hd
    exact lookupEntry_buildExistence pe items dirs item.id d hid hd
  · intro hj hothers
    constructor
    · intro hdj
      rw [lookupEntry_buildExistence pe items dirs item.id dj hid hdj, hj]
    · intro d hd hne
      rw [lookupEntry_buildExistence pe items dirs item.id d hid hd, hothers d hd hne]

/-- Witness for C4: two items, three targets, item `a` present only in
`/t2`; the (a, /t2) entry is true. -/
theorem c4_existence_matrix_witness :
    lookupEntry
        (buildExistence (fun p => p == "/t2/a")
          [{ id := "a", description := "", path := "/r/a" },
           { id := "b", description := "", path := "/r/b" }]
          ["/t1", "/t2", "/t3"])
        "a" "/t2" = some true :=
  ((c4_existence_matrix (fun p => p == "/t2/a")
      [{ id := "a", description := "", path := "/r/a" },
       { id := "b", description := "", path := "/r/b" }]
      ["/t1", "/t2", "/t3"]
      { id := "a", description := "", path := "/r/a" } "/t2"
      (by decide)).2 (by decide) (by decide)).1 (by decide)

/-- Helper: `any` of the second components of a tagged row. -/
theorem any_map_snd (q : String → Bool) :
    ∀ dirs : List String,
      ((dirs.map (fun d => (d, q d))).any fun e => e.2) = dirs.any q
  | [] => rfl
  | d :: ds => by simp [any_map_snd q ds]

/-- Helper: for an id occurring among the items, `existsInAny` is the
disjunction of the probes over all target directories. -/
theorem existsInAny_buildExistence (pe : String → Bool) (items : List Item)
    (dirs : List String) (id : String) (hid : ∃ it ∈ items, it.id = id) :
    existsInAny (buildExistence pe items dirs) id
      = dirs.any (fun d => pe (pathJoin d id)) := by
  unfold existsInAny
  rw [lookupRow_buildExistence pe dirs id items hid]
  exact any_map_snd (fun d => pe (pathJoin d id)) dirs

/-- Claim C5: with the select-all flag, install mode selects exactly the
items absent from every target directory (an item present anywhere is
excluded entirely), while update mode returns all items unconditionally. -/
theorem c5_select_all (pe : String → Bool) (items : List Item) (dirs : List String)
    (item : Item) :
    (item ∈ selectAllItems Mode.install items (buildExistence pe items dirs)
      ↔ item ∈ items ∧ ∀ d ∈ dirs, pe (pathJoin d item.id) = false)
    ∧ selectAllItems Mode.update items (buildExistence pe items dirs) = items := by
  have key : ∀ _ : item ∈ items,
      ((!(existsInAny (buildExistence pe items dirs) item.id)) = true
        ↔ ∀ d ∈ dirs, pe (pathJoin d item.id) = false) := by
    intro hmem
    rw [existsInAny_buildExistence pe items dirs item.id ⟨item, hmem, rfl⟩]
    simp [List.any_eq_true]
  constructor
  · constructor
    · intro h
      have h2 : item ∈ items.filter
          (fun i => !(existsInAny (buildExistence pe items dirs) i.id)) := by
        simpa [selectAllItems] using h
      obtain ⟨hmem, hb⟩ := List.mem_filter.mp h2
      exact ⟨hmem, (key hmem).mp hb⟩
    · rintro ⟨hmem, hall⟩
      have h2 : item ∈ items.filter
          (fun i => !(existsInAny (buildExistence pe items dirs) i.id)) :=
        List.mem_filter.mpr ⟨hmem, (key hmem).mpr hall⟩
      simpa [selectAllItems] using h2
  · simp [selectAllItems]

/-- Witness for C5: item `b` is absent from both targets (only `/t1/a`
exists), so select-all in install mode selects it. -/
theorem c5_select_all_witness :
    { id := "b", description := "", path := "/r/b" }
      ∈ selectAllItems Mode.install
          [{ id := "a", description := "", path := "/r/a" },
           { id := "b", description := "", path := "/r/b" }]
          (buildExistence (fun p => p == "/t1/a")
            [{ id := "a", description := "", path := "/r/a" },
             { id := "b", description := "", path := "/r/b" }]
            ["/t1", "/t2"]) :=
  (c5_select_all (fun p => p == "/t1/a")
      [{ id := "a", description := "", path := "/r/a" },
       { id := "b", description := "", path := "/r/b" }]
      ["/t1", "/t2"]
      { id := "b", description := "", path := "/r/b" }).1.mpr
    ⟨by decide, by decide⟩

end AgentShare
